import Mathlib

/-!
Verification of the OpenDoor job-application workflow engine.

The definitions below are a shallow embedding of the TypeScript source:
the LangGraph node bodies (`fill-form.node.ts`, `submit.node.ts`,
`handle-account.node.ts`, `prepare-resource.node.ts`), the decision
codecs, the structured-output extraction, the state schema and the CLI
validation.  JavaScript strings become Lean `String`, optional fields
become `Option`, `undefined`/absent keys become `none`, fallible code
returns `Except`.  Suspension via `interrupt` is modelled as the step
consuming the next value of a resume stream at the suspension point;
the external Automation Agent is modelled as a stream of responses
indexed by the invocation number.  Prompt (instruction) text is not
modelled: it does not influence control flow.
-/

namespace OpenDoor

/-! ## Structural models of the JavaScript string operations

`String.prototype.trim`, `toLowerCase` and `split(";")` are modelled
by structural recursion over the character list so that every proof
and witness can evaluate them; whitespace is modelled by the ASCII
whitespace characters. -/

/-- ASCII whitespace, the fragment of the JavaScript whitespace class
relevant to this code base. -/
def isJsWhitespace (c : Char) : Bool :=
  c == ' ' || c == '\t' || c == '\n' || c == '\r' || c == '\x0b' || c == '\x0c'

/-- `String.prototype.trim`: drop leading and trailing whitespace. -/
def jsTrim (s : String) : String :=
  ⟨((s.data.dropWhile fun c => isJsWhitespace c).reverse.dropWhile
      fun c => isJsWhitespace c).reverse⟩

/-- Lower-case an ASCII letter. -/
def jsCharToLower (c : Char) : Char :=
  if 65 ≤ c.toNat ∧ c.toNat ≤ 90 then Char.ofNat (c.toNat + 32) else c

/-- `String.prototype.toLowerCase` on ASCII strings. -/
def jsToLower (s : String) : String :=
  ⟨s.data.map jsCharToLower⟩

/-- Split a character list at every occurrence of `sep`, keeping empty
segments, as JavaScript `split` does. -/
def splitCharsOn (sep : Char) : List Char → List (List Char)
  | [] => [[]]
  | c :: rest =>
      let r := splitCharsOn sep rest
      if c == sep then [] :: r
      else
        match r with
        | [] => [[c]]
        | h :: t => (c :: h) :: t

/-- `String.prototype.split(";")`. -/
def jsSplitSemicolon (s : String) : List String :=
  (splitCharsOn ';' s.data).map (fun l => ⟨l⟩)

/-! ## A model of loosely-typed JavaScript values

Agent responses arrive as arbitrary runtime values; `Js` models the
value universe seen by the response-decoding code. -/

inductive Js where
  | nullVal : Js
  | undef : Js
  | boolVal : Bool → Js
  | strVal : String → Js
  | numVal : Int → Js
  | arrVal : List Js → Js
  | objVal : List (String × Js) → Js

/-- Member lookup inside an object literal; a missing key reads as
`undefined`, exactly as in JavaScript. -/
def lookupField (fields : List (String × Js)) (k : String) : Js :=
  match fields.find? (fun p => p.1 == k) with
  | some p => p.2
  | none => Js.undef

/-- JavaScript property access `v[k]`: throws a TypeError on `null` and
`undefined`, reads `undefined` on primitives, looks the key up on
objects.  This is the runtime meaning of `maybeResponse.output` after
the no-op cast in `extractStructuredOutput`. -/
def getField : Js → String → Except String Js
  | Js.nullVal, k =>
      Except.error ("TypeError: cannot read properties of null (reading " ++ k ++ ")")
  | Js.undef, k =>
      Except.error ("TypeError: cannot read properties of undefined (reading " ++ k ++ ")")
  | Js.objVal fields, k => Except.ok (lookupField fields k)
  | Js.boolVal _, _ => Except.ok Js.undef
  | Js.strVal _, _ => Except.ok Js.undef
  | Js.numVal _, _ => Except.ok Js.undef
  | Js.arrVal _, _ => Except.ok Js.undef

/-! ## fillExecutionOutputSchema (zod) -/

/-- Target shape of `fillExecutionOutputSchema` in `fill-form.node.ts`. -/
structure FillExecutionOutput where
  needsMoreInformation : Bool
  missingInformation : List String
  completionNote : Option String
deriving DecidableEq

/-- Element-wise parse of `z.array(z.string())`. -/
def parseStringList : List Js → Option (List String)
  | [] => some []
  | Js.strVal s :: rest =>
      match parseStringList rest with
      | some l => some (s :: l)
      | none => none
  | _ :: _ => none

/-- `fillExecutionOutputSchema.safeParse`: succeeds only on an object
whose `needsMoreInformation` key is a boolean; `missingInformation`
defaults to `[]` when absent and must otherwise be an array of strings;
`completionNote` is an optional string.  Unknown keys are ignored (zod
default). -/
def parseFillOutput : Js → Option FillExecutionOutput
  | Js.objVal fields =>
      match lookupField fields "needsMoreInformation" with
      | Js.boolVal b =>
          let miOpt : Option (List String) :=
            match lookupField fields "missingInformation" with
            | Js.undef => some []
            | Js.arrVal xs => parseStringList xs
            | _ => none
          let noteOpt : Option (Option String) :=
            match lookupField fields "completionNote" with
            | Js.undef => some none
            | Js.strVal s => some (some s)
            | _ => none
          match miOpt, noteOpt with
          | some mi, some note => some ⟨b, mi, note⟩
          | _, _ => none
      | _ => none
  | _ => none

/-- Fallback value returned by `extractStructuredOutput` when no
candidate envelope parses. -/
def fillOutputDefault : FillExecutionOutput :=
  ⟨false, [], none⟩

/-- `extractStructuredOutput` from `fill-form.node.ts`: reads the
`output` and `result` members of the response (JavaScript property
access, which throws on a null/undefined response), then returns the
first of `[output, result, response]` accepted by the schema, falling
back to the default. -/
def extractStructuredOutput (fillResponse : Js) : Except String FillExecutionOutput :=
  match getField fillResponse "output" with
  | Except.error e => Except.error e
  | Except.ok output =>
      match getField fillResponse "result" with
      | Except.error e => Except.error e
      | Except.ok result =>
          match [output, result, fillResponse].findSome? parseFillOutput with
          | some parsed => Except.ok parsed
          | none => Except.ok fillOutputDefault

/-- Total member access used to state what extraction does on the
values where property access cannot throw (anything except `null` and
`undefined`). -/
def memberOrUndef (v : Js) (k : String) : Js :=
  match v with
  | Js.objVal fields => lookupField fields k
  | _ => Js.undef

/-- The behaviour the spec describes for structured-output extraction:
try the `output` envelope, then the `result` envelope, then the
response itself, returning the first that parses, and otherwise the
documented default. -/
def firstParsedEnvelope (v : Js) : FillExecutionOutput :=
  match parseFillOutput (memberOrUndef v "output") with
  | some d => d
  | none =>
      match parseFillOutput (memberOrUndef v "result") with
      | some d => d
      | none =>
          match parseFillOutput v with
          | some d => d
          | none => fillOutputDefault

/-! ## shouldRequestMoreInformation -/

/-- The `success`/`completed` flags destructured from the agent
response (each may be absent at runtime). -/
structure FillFlags where
  success : Option Bool
  completed : Option Bool
deriving DecidableEq

/-- `shouldRequestMoreInformation` from `fill-form.node.ts`.  The
JavaScript truthiness test `if (fillResponse.completed)` holds exactly
when the flag is present and `true`; `fillResponse.success === false`
holds exactly when the flag is present and `false`. -/
def shouldRequestMoreInformation (fillResponse : FillFlags)
    (structuredOutput : FillExecutionOutput) : Bool :=
  if structuredOutput.needsMoreInformation then true
  else if fillResponse.completed = some true then false
  else decide (fillResponse.success = some false)

/-! ## Missing-information decision codec -/

/-- Object form of a `missing_application_information` resume value;
the `type` and `reason` keys exist on the wire but are never read. -/
structure MissingInfoFields where
  type : Option String := none
  additionalInformation : Option String := none
  message : Option String := none
  reason : Option String := none
deriving DecidableEq

/-- A resume value for the missing-information interrupt: free text or
a loosely structured object. -/
inductive MissingInfoDecision where
  | str : String → MissingInfoDecision
  | obj : MissingInfoFields → MissingInfoDecision
deriving DecidableEq

/-- `normalizeAdditionalInformation` from `fill-form.node.ts`: a string
is trimmed; an object prefers its `additionalInformation` field, then
its `message` field, each trimmed, else the empty string.  A present
field is used even when it trims to the empty string (the `??`
operator only falls through on absent fields). -/
def normalizeAdditionalInformation : MissingInfoDecision → String
  | MissingInfoDecision.str s => jsTrim s
  | MissingInfoDecision.obj o =>
      match o.additionalInformation with
      | some a => jsTrim a
      | none =>
          match o.message with
          | some m => jsTrim m
          | none => ""

/-- `mergeExtraPrompts` from `fill-form.node.ts`. -/
def mergeExtraPrompts (existingExtraPrompts : Option String)
    (additionalInformation : String) : String :=
  let trimmedExisting := jsTrim (match existingExtraPrompts with
    | some e => e
    | none => "")
  let trimmedAdditional := jsTrim additionalInformation
  if trimmedExisting = "" then
    "Additional applicant information:\n" ++ trimmedAdditional
  else
    trimmedExisting ++ "\n\nAdditional applicant information:\n" ++ trimmedAdditional

/-! ## Submission decision codec (submit.node.ts) -/

/-- Object form of a submission resume value. -/
structure SubmissionFields where
  type : Option String := none
  action : Option String := none
  suggestions : Option (List String) := none
  message : Option String := none
  reviewSuggestions : Option (List String) := none
deriving DecidableEq

/-- A resume value for the `submission_approval` interrupt. -/
inductive SubmissionDecision where
  | str : String → SubmissionDecision
  | obj : SubmissionFields → SubmissionDecision
deriving DecidableEq

/-- Result of `parseDecision`. -/
structure ParsedDecision where
  approved : Bool
  reviewSuggestions : List String
deriving DecidableEq

/-- `parseDecision` from `submit.node.ts`. -/
def parseDecision : SubmissionDecision → ParsedDecision
  | SubmissionDecision.str s =>
      let normalized := jsToLower (jsTrim s)
      if normalized = "approve" then ⟨true, []⟩
      else
        ⟨false, ((jsSplitSemicolon s).map jsTrim).filter (fun t => decide (t.length > 0))⟩
  | SubmissionDecision.obj o =>
      let action := o.action.map (fun a => jsToLower (jsTrim a))
      if action = some "approve" then ⟨true, []⟩
      else
        ⟨false,
          (((match o.suggestions with
              | some l => l
              | none => [])).map jsTrim).filter (fun t => decide (t.length > 0))⟩

/-! ## State schema (state.ts) -/

/-- `fillContextSchema`: persisted fill-form context. -/
structure FillContext where
  attemptCount : Nat
  missingInformation : List String
  lastCompletionNote : Option String
deriving DecidableEq

/-- The `fillStatus` record produced by the fill step; the flags are
destructured straight from the agent response, so they may be absent
at runtime. -/
structure FillStatus where
  success : Option Bool
  message : String
  completed : Option Bool
deriving DecidableEq

/-- The shared state record of `stateSchema` (the `messages` channel is
omitted: no node reads or writes it). -/
structure AgentState where
  jobUrl : String
  resumePath : String
  resumeText : Option String
  extraPromptsPath : Option String
  extraPrompts : Option String
  fillStatus : Option FillStatus
  reviewSuggestions : Option (List String)
  fillContext : Option FillContext
deriving DecidableEq

/-- A step output: each field is `some v` when the step supplies the
key and `none` when it leaves the key untouched. -/
structure StateUpdate where
  jobUrl : Option String := none
  resumePath : Option String := none
  resumeText : Option String := none
  extraPromptsPath : Option String := none
  extraPrompts : Option String := none
  fillStatus : Option FillStatus := none
  reviewSuggestions : Option (List String) := none
  fillContext : Option FillContext := none
deriving DecidableEq

/-- Key-wise override used for a single channel. -/
def overrideKey {α : Type} (supplied : Option α) (old : α) : α :=
  match supplied with
  | some v => v
  | none => old

/-- Key-wise override for an optional channel. -/
def overrideOptKey {α : Type} (supplied : Option α) (old : Option α) : Option α :=
  match supplied with
  | some v => some v
  | none => old

/-- LangGraph merge of a step output into the state: a supplied key
overwrites, an absent key leaves the old value. -/
def mergeState (old : AgentState) (u : StateUpdate) : AgentState :=
  { jobUrl := overrideKey u.jobUrl old.jobUrl
    resumePath := overrideKey u.resumePath old.resumePath
    resumeText := overrideOptKey u.resumeText old.resumeText
    extraPromptsPath := overrideOptKey u.extraPromptsPath old.extraPromptsPath
    extraPrompts := overrideOptKey u.extraPrompts old.extraPrompts
    fillStatus := overrideOptKey u.fillStatus old.fillStatus
    reviewSuggestions := overrideOptKey u.reviewSuggestions old.reviewSuggestions
    fillContext := overrideOptKey u.fillContext old.fillContext }

/-- A step output supplies none of the task-input keys. -/
def taskFieldsNone (u : StateUpdate) : Prop :=
  u.jobUrl = none ∧ u.resumePath = none ∧ u.extraPromptsPath = none

/-! ## FillForm step (fill-form.node.ts)

The loop body is mirrored from the source; the instruction text built
for the agent is not modelled (prompt content, excluded by the spec).
The agent is a stream of responses indexed by the number of previous
`agent.execute` calls in the activation, and each `interrupt` consumes
the next value of the resume stream.  Each response carries the
destructured `success`/`message`/`completed` flags together with the
structured outcome that `extractStructuredOutput` yields for it. -/

/-- One Automation Agent response as consumed by the fill loop. -/
structure FillAgentResponse where
  success : Option Bool
  message : String
  completed : Option Bool
  structuredOutput : FillExecutionOutput
deriving DecidableEq

/-- The value of `effectiveFillContext?.attemptCount ?? 0`. -/
def attemptCountOrZero : Option FillContext → Nat
  | some c => c.attemptCount
  | none => 0

/-- The record returned by `fillFormNode`. -/
structure FillUpdate where
  fillStatus : FillStatus
  extraPrompts : Option String
  fillContext : Option FillContext
deriving DecidableEq

/-- Which `return` statement of `fillFormNode` produced the result:
the in-loop status return, the in-loop operator-declined return, or
the fallback return placed after the loop. -/
inductive FillExit where
  | statusReturn : FillExit
  | declinedReturn : FillExit
  | fallback : FillExit
deriving DecidableEq

/-- The `for (let attempt = 0; attempt < 3; attempt += 1)` loop of
`fillFormNode`, as the recursion over the list of remaining loop
indices; the empty list is the post-loop fallback return.  The final
`Nat` of the result is the number of `agent.execute` calls performed.
`calls` and `susps` count the calls and suspensions made so far and
index the two streams. -/
def fillFormLoop (agent : Nat → FillAgentResponse) (resumes : Nat → MissingInfoDecision) :
    List Nat → Option String → Option FillContext → Nat → Nat →
    FillUpdate × FillExit × Nat
  | [], extraPrompts, fillContext, calls, _susps =>
      (⟨⟨some false, "Unable to complete form filling after repeated attempts.", some false⟩,
        extraPrompts, fillContext⟩, FillExit.fallback, calls)
  | attempt :: rest, extraPrompts, fillContext, calls, susps =>
      let fillResponse := agent calls
      let structuredOutput := fillResponse.structuredOutput
      let nextContext : FillContext :=
        ⟨attemptCountOrZero fillContext + 1, structuredOutput.missingInformation,
          structuredOutput.completionNote⟩
      let needsMoreInformation :=
        shouldRequestMoreInformation ⟨fillResponse.success, fillResponse.completed⟩
          structuredOutput
      if !needsMoreInformation || attempt == 2 then
        (⟨⟨fillResponse.success, fillResponse.message, fillResponse.completed⟩,
          extraPrompts, some nextContext⟩, FillExit.statusReturn, calls + 1)
      else
        let decision := resumes susps
        let additionalInformation := normalizeAdditionalInformation decision
        if additionalInformation = "" then
          (⟨⟨some false,
              "Application requires more information, but no additional details were provided.",
              some false⟩, extraPrompts, some nextContext⟩, FillExit.declinedReturn, calls + 1)
        else
          fillFormLoop agent resumes rest
            (some (mergeExtraPrompts extraPrompts additionalInformation)) (some nextContext)
            (calls + 1) (susps + 1)

/-- One activation of `fillFormNode`, starting from the state's
`extraPrompts` and `fillContext` channels. -/
def fillFormNodeModel (agent : Nat → FillAgentResponse) (resumes : Nat → MissingInfoDecision)
    (extraPrompts : Option String) (fillContext : Option FillContext) :
    FillUpdate × FillExit × Nat :=
  fillFormLoop agent resumes [0, 1, 2] extraPrompts fillContext 0 0

/-- The state update carried by a `fillFormNode` return value. -/
def fillUpdateToState (u : FillUpdate) : StateUpdate :=
  { fillStatus := some u.fillStatus
    extraPrompts := u.extraPrompts
    fillContext := u.fillContext }

/-! ## Submit step (submit.node.ts) -/

/-- Routing targets reachable from the submit step
(`ends: [END, "FillFormNode"]`). -/
inductive SubmitGoto where
  | fillFormNode : SubmitGoto
  | endMarker : SubmitGoto
deriving DecidableEq

/-- A `new Command({update?, goto})` as issued by `submitNode`; the
only channel it ever updates is `reviewSuggestions`. -/
structure SubmitCommand where
  update : Option (List String)
  goto : SubmitGoto
deriving DecidableEq

/-- What a graph node may return: a plain state update (implicit
continue along the static edge) or an explicit routing command. -/
inductive NodeReturn where
  | plain : StateUpdate → NodeReturn
  | command : SubmitCommand → NodeReturn
deriving DecidableEq

/-- `submitNode` after its single interrupt has been answered with
`decision`: the returned value together with whether the final
submit action (`stagehand.act` on the approved branch) was performed. -/
def submitNodeModel (decision : SubmissionDecision) : NodeReturn × Bool :=
  let parsed := parseDecision decision
  if parsed.approved = false then
    if parsed.reviewSuggestions.length = 0 then
      (NodeReturn.command
        ⟨some ["Please review and improve the form before submission."],
          SubmitGoto.fillFormNode⟩, false)
    else
      (NodeReturn.command ⟨some parsed.reviewSuggestions, SubmitGoto.fillFormNode⟩, false)
  else
    (NodeReturn.command ⟨none, SubmitGoto.endMarker⟩, true)

/-- The state update carried by a submit return value. -/
def submitUpdateToState : NodeReturn → StateUpdate
  | NodeReturn.plain u => u
  | NodeReturn.command c =>
      match c.update with
      | some l => { reviewSuggestions := some l }
      | none => {}

/-! ## PrepareResource step (prepare-resource.node.ts)

`pdfText` models the PDF-to-text capability and `readTextFile` the
`readFile` capability; both are external collaborators. -/

/-- `prepareResourceNode`: parses the resume and, when an extra-prompts
path is present and non-empty (JavaScript truthiness of the
`extraPromptsPath ? ... : undefined` conditional), reads it. -/
def prepareResourceNode (pdfText : String → String) (readTextFile : String → String)
    (state : AgentState) : StateUpdate :=
  { resumeText := some (pdfText state.resumePath)
    extraPrompts :=
      match state.extraPromptsPath with
      | some p => if p = "" then none else some (readTextFile p)
      | none => none }

/-! ## HandleAccount step (handle-account.node.ts)

The three agent responses are modelled after extraction through their
zod schemas (the extraction helpers mirror `extractStructuredOutput`
and are not repeated); the password and verification interrupts each
consume one decision.  Thrown errors become `Except.error`. -/

/-- Extracted `accountRequirementSchema` outcome. -/
structure AccountRequirement where
  accountRequired : Bool
  existingAccountDetected : Option Bool := none
  applicationUrl : Option String := none
  statusMessage : Option String := none
deriving DecidableEq

/-- Extracted `accountSetupSchema` outcome. -/
structure AccountSetup where
  accountSetupComplete : Bool
  requiresVerification : Bool
  verificationInstructions : Option String := none
  applicationUrl : Option String := none
  statusMessage : Option String := none
deriving DecidableEq

/-- Extracted `loginCompletionSchema` outcome. -/
structure LoginCompletion where
  loggedIn : Bool
  applicationUrl : Option String := none
  statusMessage : Option String := none
deriving DecidableEq

/-- Object form of an `account_password` resume value. -/
structure AccountPasswordFields where
  type : Option String := none
  action : Option String := none
  password : Option String := none
  message : Option String := none
  reason : Option String := none
deriving DecidableEq

/-- A resume value for the `account_password` interrupt. -/
inductive AccountPasswordDecision where
  | str : String → AccountPasswordDecision
  | obj : AccountPasswordFields → AccountPasswordDecision
deriving DecidableEq

/-- Object form of an `account_verification` resume value. -/
structure AccountVerificationFields where
  type : Option String := none
  action : Option String := none
  verificationCode : Option String := none
  message : Option String := none
  reason : Option String := none
deriving DecidableEq

/-- A resume value for the `account_verification` interrupt. -/
inductive AccountVerificationDecision where
  | str : String → AccountVerificationDecision
  | obj : AccountVerificationFields → AccountVerificationDecision
deriving DecidableEq

/-- `parsePasswordDecision`: `some` exactly when a non-empty trimmed
password was supplied. -/
def parsePasswordDecision : AccountPasswordDecision → Option String
  | AccountPasswordDecision.str s =>
      let trimmed := jsTrim s
      if trimmed = "" then none else some trimmed
  | AccountPasswordDecision.obj o =>
      let password : Option String :=
        match o.password with
        | some p => some (jsTrim p)
        | none => o.message.map jsTrim
      match password with
      | some p => if p = "" then none else some p
      | none => none

/-- `parseVerificationDecision`: `some` exactly when a non-empty
trimmed code other than `"done"` (case-insensitive) was supplied. -/
def parseVerificationDecision : AccountVerificationDecision → Option String
  | AccountVerificationDecision.str s =>
      let trimmed := jsTrim s
      if trimmed = "" ∨ jsToLower trimmed = "done" then none else some trimmed
  | AccountVerificationDecision.obj o =>
      let code : Option String :=
        match o.verificationCode with
        | some c => some (jsTrim c)
        | none => o.message.map jsTrim
      match code with
      | some c => if c = "" ∨ jsToLower c = "done" then none else some c
      | none => none

/-- JavaScript falsiness of an optional environment string: absent or
empty. -/
def envMissing : Option String → Bool
  | none => true
  | some s => s = ""

/-- `handleAccountNode` after its agent calls and interrupts: every
successful exit returns the empty update `{}`; every other path throws. -/
def handleAccountNode (req : AccountRequirement) (setup : AccountSetup)
    (completion : LoginCompletion) (envEmail envPassword : Option String)
    (passwordDecision : AccountPasswordDecision)
    (verificationDecision : AccountVerificationDecision) : Except String StateUpdate :=
  if req.accountRequired = false then Except.ok {}
  else if envMissing envEmail then
    Except.error
      "This application requires account creation/login, but ACCOUNT_EMAIL is missing in .env."
  else
    let passwordStep : Except String String :=
      if req.existingAccountDetected = some true then
        match parsePasswordDecision passwordDecision with
        | none => Except.error "A password is required to log into your existing account."
        | some p => Except.ok p
      else if envMissing envPassword then
        Except.error
          "This application requires account creation/login, but ACCOUNT_PASSWORD is missing in .env."
      else
        Except.ok (match envPassword with
          | some p => p
          | none => "")
    match passwordStep with
    | Except.error e => Except.error e
    | Except.ok _accountPassword =>
        if setup.requiresVerification then
          -- an extra agent call happens when `parseVerificationDecision`
          -- yields a code; it does not affect the returned update
          let _ := parseVerificationDecision verificationDecision
          if completion.loggedIn = false then
            Except.error (match completion.statusMessage with
              | some m => m
              | none => "Unable to complete login after verification step.")
          else Except.ok {}
        else if setup.accountSetupComplete = false then
          Except.error (match setup.statusMessage with
            | some m => m
            | none => "Account setup did not complete successfully.")
        else Except.ok {}

/-! ## CLI entry validation (index.ts)

`fsExists` models `existsSync` and `isUrl` models `z.url().parse`; a
separate `readable` oracle records which files could actually be read,
which the validation code never consults.  Option parsers run inside
`program.parse`, before `main` executes any step. -/

/-- The raw CLI arguments. -/
structure CliArgs where
  jobUrl : String
  resumePath : String
  extraPromptsPath : Option String := none
deriving DecidableEq

/-- `validatePath` from `index.ts`: the `z.string().min(1)` parse and
the `existsSync` check; the `InvalidArgumentError` thrown on a missing
file is re-wrapped by the surrounding catch. -/
def validatePath (fsExists : String → Bool) (value : String) : Except String String :=
  if value.length < 1 then
    Except.error ("Invalid path: " ++ value ++ ", expected a non-empty string")
  else if fsExists value = false then
    Except.error ("Invalid path: " ++ value ++ ", File not found at path: " ++ value)
  else Except.ok value

/-- Option parsing performed by `program.parse`: the job URL must
satisfy `z.url()`, and each supplied path must pass `validatePath`. -/
def parseCliOptions (isUrl fsExists : String → Bool) (args : CliArgs) :
    Except String CliArgs :=
  if isUrl args.jobUrl = false then
    Except.error ("Invalid URL: " ++ args.jobUrl)
  else
    match validatePath fsExists args.resumePath with
    | Except.error e => Except.error e
    | Except.ok _ =>
        match args.extraPromptsPath with
        | none => Except.ok args
        | some p =>
            match validatePath fsExists p with
            | Except.error e => Except.error e
            | Except.ok _ => Except.ok args

/-- The program entry: options are validated during `program.parse`;
only when parsing succeeds does `main` run, executing its workflow
steps (their number abstracted as `mainSteps`).  The second component
counts executed workflow steps; the `readable` oracle is threaded to
show validation is independent of it. -/
def programModel (isUrl fsExists _readable : String → Bool) (mainSteps : CliArgs → Nat)
    (args : CliArgs) : Except String Unit × Nat :=
  match parseCliOptions isUrl fsExists args with
  | Except.error e => (Except.error e, 0)
  | Except.ok opts => (Except.ok (), mainSteps opts)

/-! ## Concrete example inputs used to exercise the theorems -/

/-- An agent that immediately reports a completed form. -/
def agentDone : Nat → FillAgentResponse :=
  fun _ => ⟨some true, "Form completed.", some true, ⟨false, [], none⟩⟩

/-- A resume stream that always supplies information. -/
def resumesInfo : Nat → MissingInfoDecision :=
  fun _ => MissingInfoDecision.str "extra info"

/-- An agent that asks for more information on every attempt while also
reporting `completed: true` on the top-level response. -/
def agentNeedsButCompleted : Nat → FillAgentResponse :=
  fun _ => ⟨some true, "form reported complete", some true, ⟨true, ["phone number"], none⟩⟩

/-- An agent that fails and asks for more information. -/
def agentNeedsInfo : Nat → FillAgentResponse :=
  fun _ => ⟨some false, "missing fields", some false, ⟨true, ["email"], none⟩⟩

/-- A resume stream that only supplies whitespace. -/
def resumesBlank : Nat → MissingInfoDecision :=
  fun _ => MissingInfoDecision.str "   "

/-- A response nesting a valid structured outcome under the `output`
key. -/
def jsOutputEnvelope : Js :=
  Js.objVal [("output", Js.objVal [("needsMoreInformation", Js.boolVal true)])]

/-- A concrete state record. -/
def stateW : AgentState :=
  { jobUrl := "https://example.com/job/123"
    resumePath := "/data/resume.pdf"
    resumeText := none
    extraPromptsPath := some "/data/notes.txt"
    extraPrompts := none
    fillStatus := none
    reviewSuggestions := none
    fillContext := none }

/-- A PDF-extraction stub. -/
def pdfTextW : String → String := fun _ => "resume text"

/-- A file-reading stub. -/
def readTextFileW : String → String := fun _ => "notes"

/-- An account requirement reporting that no account is needed. -/
def reqNoAccount : AccountRequirement := ⟨false, none, none, none⟩

/-- An account setup outcome. -/
def setupW : AccountSetup := ⟨true, false, none, none, none⟩

/-- A login completion outcome. -/
def completionW : LoginCompletion := ⟨true, none, none⟩

/-- A password decision. -/
def pwdW : AccountPasswordDecision := AccountPasswordDecision.str "hunter2"

/-- A verification decision. -/
def vdW : AccountVerificationDecision := AccountVerificationDecision.str "done"

/-- Concrete CLI arguments. -/
def argsW : CliArgs :=
  { jobUrl := "https://example.com/job/123", resumePath := "/data/resume.pdf" }

/-- A URL oracle accepting everything. -/
def urlAlways : String → Bool := fun _ => true

/-- A filesystem oracle on which every path exists. -/
def fsAlways : String → Bool := fun _ => true

/-- A filesystem oracle on which no path exists. -/
def fsNever : String → Bool := fun _ => false

/-- A readability oracle on which no file is readable. -/
def readNever : String → Bool := fun _ => false

/-- A `main` that executes two workflow steps. -/
def mainTwo : CliArgs → Nat := fun _ => 2

/-! ## Theorems -/

/-- Computation rule singling out the `some` case of
`attemptCountOrZero`, so that proofs never unfold it on a variable. -/
theorem attemptCountOrZero_some (c : FillContext) :
    attemptCountOrZero (some c) = c.attemptCount := rfl

/-- Invariant of the fill loop: the call counter grows by at most one
per remaining loop index, the returned fill context counts exactly the
calls made, and when index `2` is among the remaining indices the loop
always returns from inside (the post-loop fallback is unreachable). -/
theorem fillFormLoop_invariant (agent : Nat → FillAgentResponse)
    (resumes : Nat → MissingInfoDecision) (attempts : List Nat)
    (ep : Option String) (fc : Option FillContext) (calls susps : Nat) :
    calls ≤ (fillFormLoop agent resumes attempts ep fc calls susps).2.2 ∧
    (fillFormLoop agent resumes attempts ep fc calls susps).2.2 ≤ calls + attempts.length ∧
    (∀ c, (fillFormLoop agent resumes attempts ep fc calls susps).1.fillContext = some c →
      c.attemptCount = attemptCountOrZero fc +
        ((fillFormLoop agent resumes attempts ep fc calls susps).2.2 - calls)) ∧
    ((2 : Nat) ∈ attempts →
      (fillFormLoop agent resumes attempts ep fc calls susps).2.1 = FillExit.statusReturn ∨
      (fillFormLoop agent resumes attempts ep fc calls susps).2.1 = FillExit.declinedReturn) := by
  induction attempts generalizing ep fc calls susps with
  | nil =>
      refine ⟨Nat.le_refl _, by simp [fillFormLoop], ?_, by simp⟩
      intro c hc
      have hfc : fc = some c := by simpa [fillFormLoop] using hc
      subst hfc
      simp [fillFormLoop, attemptCountOrZero_some]
  | cons a rest ih =>
      by_cases hcond :
          (!shouldRequestMoreInformation ⟨(agent calls).success, (agent calls).completed⟩
              (agent calls).structuredOutput || a == 2) = true
      · have hres : fillFormLoop agent resumes (a :: rest) ep fc calls susps =
            (⟨⟨(agent calls).success, (agent calls).message, (agent calls).completed⟩,
              ep, some ⟨attemptCountOrZero fc + 1,
                (agent calls).structuredOutput.missingInformation,
                (agent calls).structuredOutput.completionNote⟩⟩,
              FillExit.statusReturn, calls + 1) := by
          simp only [fillFormLoop, hcond, if_true]
        rw [hres]
        refine ⟨Nat.le_succ _, by simp only [List.length_cons]; omega, ?_, fun _ => Or.inl rfl⟩
        intro c hc
        simp only [Option.some.injEq] at hc
        simp [← hc, attemptCountOrZero_some]
      · have hcond' :
            (!shouldRequestMoreInformation ⟨(agent calls).success, (agent calls).completed⟩
                (agent calls).structuredOutput || a == 2) = false := by
          simpa using hcond
        have ha2 : a ≠ 2 := by
          intro h
          subst h
          simp at hcond'
        by_cases hemp :
            normalizeAdditionalInformation (resumes susps) = ""
        · have hres : fillFormLoop agent resumes (a :: rest) ep fc calls susps =
              (⟨⟨some false,
                  "Application requires more information, but no additional details were provided.",
                  some false⟩, ep, some ⟨attemptCountOrZero fc + 1,
                    (agent calls).structuredOutput.missingInformation,
                    (agent calls).structuredOutput.completionNote⟩⟩,
                FillExit.declinedReturn, calls + 1) := by
            simp only [fillFormLoop, hcond', Bool.false_eq_true, if_false, hemp, if_true]
          rw [hres]
          refine ⟨Nat.le_succ _, by simp only [List.length_cons]; omega, ?_,
            fun _ => Or.inr rfl⟩
          intro c hc
          simp only [Option.some.injEq] at hc
          simp [← hc, attemptCountOrZero_some]
        · have hunf :
              fillFormLoop agent resumes (a :: rest) ep fc calls susps =
              fillFormLoop agent resumes rest
                (some (mergeExtraPrompts ep (normalizeAdditionalInformation (resumes susps))))
                (some ⟨attemptCountOrZero fc + 1,
                  (agent calls).structuredOutput.missingInformation,
                  (agent calls).structuredOutput.completionNote⟩) (calls + 1) (susps + 1) := by
            simp only [fillFormLoop, hcond', Bool.false_eq_true, if_false, hemp, if_true]
          rw [hunf]
          obtain ⟨h1, h2, h3, h4⟩ := ih
            (some (mergeExtraPrompts ep (normalizeAdditionalInformation (resumes susps))))
            (some ⟨attemptCountOrZero fc + 1, (agent calls).structuredOutput.missingInformation,
              (agent calls).structuredOutput.completionNote⟩) (calls + 1) (susps + 1)
          refine ⟨by omega, by simp only [List.length_cons]; omega, ?_, ?_⟩
          · intro c hc
            have hcc := h3 c hc
            rw [attemptCountOrZero_some] at hcc
            have hred : (⟨attemptCountOrZero fc + 1,
                (agent calls).structuredOutput.missingInformation,
                (agent calls).structuredOutput.completionNote⟩ : FillContext).attemptCount =
                attemptCountOrZero fc + 1 := rfl
            rw [hred] at hcc
            omega
          · intro hmem
            rcases List.mem_cons.mp hmem with h | h
            · exact absurd h.symm ha2
            · exact h4 h

/-- C1: within one activation of `fillFormNode` the Automation Agent
is invoked at most 3 times, for every agent-response stream and every
resume stream (hence regardless of how often the activation suspends
and resumes), and the returned fill context's attempt counter equals
the incoming counter plus the number of agent invocations — so a
suspension-and-resume never resets the counter. -/
theorem fillForm_invocations_bounded (agent : Nat → FillAgentResponse)
    (resumes : Nat → MissingInfoDecision) (ep : Option String) (fc : Option FillContext) :
    (fillFormNodeModel agent resumes ep fc).2.2 ≤ 3 ∧
    (∀ c, (fillFormNodeModel agent resumes ep fc).1.fillContext = some c →
      c.attemptCount = attemptCountOrZero fc + (fillFormNodeModel agent resumes ep fc).2.2) := by
  obtain ⟨h1, h2, h3, _⟩ := fillFormLoop_invariant agent resumes [0, 1, 2] ep fc 0 0
  refine ⟨by simpa using h2, ?_⟩
  intro c hc
  have := h3 c hc
  simpa using this

/-- Closed instance of `fillForm_invocations_bounded` at a concrete
agent and resume stream, with the hypothesis of its second conjunct
discharged by evaluation. -/
theorem fillForm_invocations_bounded_witness :
    (fillFormNodeModel agentDone resumesInfo none none).2.2 ≤ 3 ∧
    (⟨1, [], none⟩ : FillContext).attemptCount =
      attemptCountOrZero none + (fillFormNodeModel agentDone resumesInfo none none).2.2 := by
  have h := fillForm_invocations_bounded agentDone resumesInfo none none
  exact ⟨h.1, h.2 ⟨1, [], none⟩ rfl⟩

/-- C10: every activation of `fillFormNode` returns from inside the
retry loop — via the in-loop status return or the operator-declined
return — so the fallback return placed after the loop (message
"Unable to complete form filling after repeated attempts.") is
unreachable for all inputs. -/
theorem fillForm_fallback_unreachable (agent : Nat → FillAgentResponse)
    (resumes : Nat → MissingInfoDecision) (ep : Option String) (fc : Option FillContext) :
    (fillFormNodeModel agent resumes ep fc).2.1 = FillExit.statusReturn ∨
    (fillFormNodeModel agent resumes ep fc).2.1 = FillExit.declinedReturn := by
  obtain ⟨_, _, _, h4⟩ := fillFormLoop_invariant agent resumes [0, 1, 2] ep fc 0 0
  exact h4 (by simp)

/-- C2 (counterexample): a run in which the agent reports
`needsMoreInformation: true` on all 3 attempts and the operator always
supplies non-empty information, yet the step exits after the 3rd
invocation with `completed = some true` — the status is not forced to
`completed: false`; it mirrors the agent's latest response. -/
theorem fillForm_exhausted_completed_counterexample :
    (agentNeedsButCompleted 0).structuredOutput.needsMoreInformation = true ∧
    (agentNeedsButCompleted 1).structuredOutput.needsMoreInformation = true ∧
    (agentNeedsButCompleted 2).structuredOutput.needsMoreInformation = true ∧
    normalizeAdditionalInformation (resumesInfo 0) = "extra info" ∧
    normalizeAdditionalInformation (resumesInfo 1) = "extra info" ∧
    (fillFormNodeModel agentNeedsButCompleted resumesInfo none none).2.2 = 3 ∧
    (fillFormNodeModel agentNeedsButCompleted resumesInfo none none).1.fillStatus.completed =
      some true := by
  refine ⟨rfl, rfl, rfl, by decide, by decide, ?_, ?_⟩ <;> rfl

/-- C2 (amended): when the agent reports `needsMoreInformation: true`
on all 3 attempts and every resume supplies non-empty additional
information, the step exits after the 3rd agent invocation via the
in-loop status return, with `fillStatus` taken verbatim from the
agent's latest response — its `completed` flag equals the latest
response's `completed` flag rather than being forced to false. -/
theorem fillForm_exhausted_returns_latest_flags (agent : Nat → FillAgentResponse)
    (resumes : Nat → MissingInfoDecision) (ep : Option String) (fc : Option FillContext)
    (hneeds : ∀ i, i < 3 → (agent i).structuredOutput.needsMoreInformation = true)
    (hres : ∀ j, normalizeAdditionalInformation (resumes j) ≠ "") :
    (fillFormNodeModel agent resumes ep fc).2.2 = 3 ∧
    (fillFormNodeModel agent resumes ep fc).2.1 = FillExit.statusReturn ∧
    (fillFormNodeModel agent resumes ep fc).1.fillStatus =
      ⟨(agent 2).success, (agent 2).message, (agent 2).completed⟩ := by
  have h0 := hneeds 0 (by omega)
  have h1 := hneeds 1 (by omega)
  have hr0 := hres 0
  have hr1 := hres 1
  refine ⟨?_, ?_, ?_⟩ <;>
    simp [fillFormNodeModel, fillFormLoop, shouldRequestMoreInformation, h0, h1, hr0, hr1]

/-- Closed instance of `fillForm_exhausted_returns_latest_flags` at a
concrete run, with both hypotheses discharged by evaluation. -/
theorem fillForm_exhausted_returns_latest_flags_witness :
    (fillFormNodeModel agentNeedsButCompleted resumesInfo none none).2.2 = 3 ∧
    (fillFormNodeModel agentNeedsButCompleted resumesInfo none none).2.1 =
      FillExit.statusReturn ∧
    (fillFormNodeModel agentNeedsButCompleted resumesInfo none none).1.fillStatus =
      ⟨some true, "form reported complete", some true⟩ := by
  have h := fillForm_exhausted_returns_latest_flags agentNeedsButCompleted resumesInfo
    none none (fun i _ => rfl)
    (fun j => by
      show normalizeAdditionalInformation (MissingInfoDecision.str "extra info") ≠ ""
      decide)
  exact ⟨h.1, h.2.1, h.2.2⟩

/-- C3: at any suspension of the fill loop (more information needed and
the attempt bound not yet reached), if the decoded additional
information is empty the step returns at once through the declined
return — failure status `success: false`, `completed: false` — and the
total number of agent invocations stays at the count made before the
suspension: no further Automation Agent invocation happens in the
activation. -/
theorem fillForm_declined_exit (agent : Nat → FillAgentResponse)
    (resumes : Nat → MissingInfoDecision) (attempt : Nat) (rest : List Nat)
    (ep : Option String) (fc : Option FillContext) (calls susps : Nat)
    (hneeds : shouldRequestMoreInformation
      ⟨(agent calls).success, (agent calls).completed⟩ (agent calls).structuredOutput = true)
    (hatt : attempt ≠ 2)
    (hempty : normalizeAdditionalInformation (resumes susps) = "") :
    fillFormLoop agent resumes (attempt :: rest) ep fc calls susps =
      (⟨⟨some false,
          "Application requires more information, but no additional details were provided.",
          some false⟩, ep,
        some ⟨attemptCountOrZero fc + 1, (agent calls).structuredOutput.missingInformation,
          (agent calls).structuredOutput.completionNote⟩⟩,
        FillExit.declinedReturn, calls + 1) := by
  have hbeq : (attempt == 2) = false := by
    simpa using hatt
  simp only [fillFormLoop, hneeds, hbeq, Bool.not_true, Bool.or_false, Bool.false_eq_true,
    if_false, hempty, if_true]

/-- Closed instance of `fillForm_declined_exit`: the agent asks for
more information at attempt 0, the operator answers with whitespace
only, and the activation ends with the declined status after exactly
the one invocation already made. -/
theorem fillForm_declined_exit_witness :
    fillFormLoop agentNeedsInfo resumesBlank [0, 1, 2] none none 0 0 =
      (⟨⟨some false,
          "Application requires more information, but no additional details were provided.",
          some false⟩, none, some ⟨1, ["email"], none⟩⟩,
        FillExit.declinedReturn, 1) := by
  have h := fillForm_declined_exit agentNeedsInfo resumesBlank 0 [1, 2] none none 0 0
    (by decide) (by decide) (by decide)
  simpa using h

/-- C4: on a string resume value the decision codec approves exactly
when the trimmed, lower-cased input is "approve"; any other string is
split on ";", each segment trimmed and empty segments dropped, in
order, as a non-approval with those suggestions; in particular
"Add phone; ;Fix date" decodes to ["Add phone", "Fix date"]. -/
theorem parseDecision_string_spec (s : String) :
    ((parseDecision (SubmissionDecision.str s)).approved = true ↔
      jsToLower (jsTrim s) = "approve") ∧
    parseDecision (SubmissionDecision.str s) =
      (if jsToLower (jsTrim s) = "approve" then ⟨true, []⟩
       else ⟨false,
        ((jsSplitSemicolon s).map jsTrim).filter (fun t => decide (t.length > 0))⟩) ∧
    parseDecision (SubmissionDecision.str "Add phone; ;Fix date") =
      ⟨false, ["Add phone", "Fix date"]⟩ := by
  refine ⟨?_, ?_, by decide⟩ <;>
    by_cases h : jsToLower (jsTrim s) = "approve" <;> simp [parseDecision, h]

/-- C6: the more-information heuristic holds exactly when the
structured outcome requests it, or the response neither reports
completion (`completed` present and true) nor omits a strict failure
(`success` present and false). -/
theorem shouldRequestMoreInformation_spec (flags : FillFlags)
    (out : FillExecutionOutput) :
    shouldRequestMoreInformation flags out = true ↔
      (out.needsMoreInformation = true ∨
        ((flags.completed = none ∨ flags.completed = some false) ∧
          flags.success = some false)) := by
  obtain ⟨s, c⟩ := flags
  cases hn : out.needsMoreInformation <;>
    rcases s with _ | sb <;>
    rcases c with _ | cb <;>
    simp [shouldRequestMoreInformation, hn]

/-- C5: the submit step always returns an explicit routing command —
to the terminal marker with the final commit action performed when
approved, otherwise back to `FillFormNode` carrying exactly the
decoded suggestions, or the single synthesized generic review note
when none were decoded; the spec scenarios "approve" and
"Fix email format;Add cover letter" behave accordingly. -/
theorem submitNode_routing_spec (d : SubmissionDecision) :
    submitNodeModel d =
      (if (parseDecision d).approved = true then
        (NodeReturn.command ⟨none, SubmitGoto.endMarker⟩, true)
       else if (parseDecision d).reviewSuggestions = [] then
        (NodeReturn.command
          ⟨some ["Please review and improve the form before submission."],
            SubmitGoto.fillFormNode⟩, false)
       else
        (NodeReturn.command ⟨some (parseDecision d).reviewSuggestions,
          SubmitGoto.fillFormNode⟩, false)) ∧
    (∃ c, (submitNodeModel d).1 = NodeReturn.command c) ∧
    submitNodeModel (SubmissionDecision.str "approve") =
      (NodeReturn.command ⟨none, SubmitGoto.endMarker⟩, true) ∧
    submitNodeModel (SubmissionDecision.str "Fix email format;Add cover letter") =
      (NodeReturn.command ⟨some ["Fix email format", "Add cover letter"],
        SubmitGoto.fillFormNode⟩, false) := by
  refine ⟨?_, ?_, by decide, by decide⟩
  · cases hap : (parseDecision d).approved <;>
      cases hsug : (parseDecision d).reviewSuggestions <;>
      simp [submitNodeModel, hap, hsug]
  · cases hap : (parseDecision d).approved <;>
      cases hsug : (parseDecision d).reviewSuggestions <;>
      simp [submitNodeModel, hap, hsug]

/-- C7 (counterexample): structured-output extraction is not total on
all response values — on a `null` response the property access
`maybeResponse.output` throws a TypeError instead of returning the
default. -/
theorem extractStructuredOutput_null_counterexample :
    extractStructuredOutput Js.nullVal =
      Except.error "TypeError: cannot read properties of null (reading output)" := rfl

/-- C7 (amended): on every response other than `null` and `undefined`,
structured-output extraction never throws: it returns the first of the
`output` envelope, the `result` envelope and the response itself that
parses against the schema, and otherwise the default
`{needsMoreInformation: false, missingInformation: []}`. -/
theorem extractStructuredOutput_envelope_priority (v : Js)
    (h1 : v ≠ Js.nullVal) (h2 : v ≠ Js.undef) :
    extractStructuredOutput v = Except.ok (firstParsedEnvelope v) := by
  cases v with
  | nullVal => exact absurd rfl h1
  | undef => exact absurd rfl h2
  | objVal fields =>
      rcases ho : parseFillOutput (lookupField fields "output") with _ | d1 <;>
        rcases hr : parseFillOutput (lookupField fields "result") with _ | d2 <;>
        rcases hs : parseFillOutput (Js.objVal fields) with _ | d3 <;>
        simp [extractStructuredOutput, getField, firstParsedEnvelope, memberOrUndef,
          List.findSome?, ho, hr, hs]
  | boolVal b =>
      simp [extractStructuredOutput, getField, firstParsedEnvelope, memberOrUndef,
        List.findSome?, parseFillOutput]
  | strVal s =>
      simp [extractStructuredOutput, getField, firstParsedEnvelope, memberOrUndef,
        List.findSome?, parseFillOutput]
  | numVal n =>
      simp [extractStructuredOutput, getField, firstParsedEnvelope, memberOrUndef,
        List.findSome?, parseFillOutput]
  | arrVal xs =>
      simp [extractStructuredOutput, getField, firstParsedEnvelope, memberOrUndef,
        List.findSome?, parseFillOutput]

/-- Closed instance of `extractStructuredOutput_envelope_priority` on a
response carrying its structured outcome under the `output` key. -/
theorem extractStructuredOutput_envelope_priority_witness :
    extractStructuredOutput jsOutputEnvelope =
      Except.ok (firstParsedEnvelope jsOutputEnvelope) ∧
    firstParsedEnvelope jsOutputEnvelope = ⟨true, [], none⟩ := by
  have h := extractStructuredOutput_envelope_priority jsOutputEnvelope
    (fun hh => Js.noConfusion hh) (fun hh => Js.noConfusion hh)
  exact ⟨h, rfl⟩

/-- C8: no step output carries the task-input keys `jobUrl`,
`resumePath` or `extraPromptsPath` — for PrepareResource, FillForm,
HandleAccount (on every non-throwing path) and Submit — and the
key-wise merge therefore leaves the task input of the state untouched
whenever the update omits those keys. -/
theorem steps_preserve_task_input
    (pdfText readTextFile : String → String) (s : AgentState)
    (agent : Nat → FillAgentResponse) (resumes : Nat → MissingInfoDecision)
    (ep : Option String) (fc : Option FillContext)
    (req : AccountRequirement) (setup : AccountSetup) (completion : LoginCompletion)
    (envEmail envPassword : Option String)
    (pwd : AccountPasswordDecision) (vd : AccountVerificationDecision)
    (d : SubmissionDecision) (old : AgentState) (u : StateUpdate) :
    taskFieldsNone (prepareResourceNode pdfText readTextFile s) ∧
    taskFieldsNone (fillUpdateToState (fillFormNodeModel agent resumes ep fc).1) ∧
    (handleAccountNode req setup completion envEmail envPassword pwd vd = Except.ok u →
      taskFieldsNone u) ∧
    taskFieldsNone (submitUpdateToState (submitNodeModel d).1) ∧
    (taskFieldsNone u →
      (mergeState old u).jobUrl = old.jobUrl ∧
      (mergeState old u).resumePath = old.resumePath ∧
      (mergeState old u).extraPromptsPath = old.extraPromptsPath) := by
  refine ⟨⟨rfl, rfl, rfl⟩, ⟨rfl, rfl, rfl⟩, ?_, ?_, ?_⟩
  · intro h
    simp only [handleAccountNode] at h
    repeat' split at h
    all_goals
      first
        | (cases h; exact ⟨rfl, rfl, rfl⟩)
        | cases h
  · cases hap : (parseDecision d).approved <;>
      cases hsug : (parseDecision d).reviewSuggestions <;>
      simp [submitNodeModel, submitUpdateToState, taskFieldsNone, hap, hsug]
  · rintro ⟨h1, h2, h3⟩
    simp [mergeState, overrideKey, overrideOptKey, h1, h2, h3]

/-- Closed instance of `steps_preserve_task_input`: the hypotheses of
its HandleAccount and merge conjuncts discharged at a concrete run
whose account step returns the empty update. -/
theorem steps_preserve_task_input_witness :
    taskFieldsNone (prepareResourceNode pdfTextW readTextFileW stateW) ∧
    taskFieldsNone ({} : StateUpdate) ∧
    (mergeState stateW {}).jobUrl = stateW.jobUrl := by
  have h := steps_preserve_task_input pdfTextW readTextFileW stateW
    agentDone resumesInfo none none reqNoAccount setupW completionW
    none none pwdW vdW (SubmissionDecision.str "approve") stateW {}
  exact ⟨h.1, h.2.2.1 rfl, (h.2.2.2.2 ⟨rfl, rfl, rfl⟩).1⟩

/-- Helper: a path that does not exist on the filesystem never passes
`validatePath`. -/
theorem validatePath_error_of_not_exists (fsExists : String → Bool) (value : String)
    (h : fsExists value = false) :
    ∃ e, validatePath fsExists value = Except.error e := by
  unfold validatePath
  split
  · exact ⟨_, rfl⟩
  · simp [h]

/-- C9 (counterexample): validation checks existence, not readability —
with every path existing but no file readable, option parsing succeeds
and `main` executes its workflow steps even though the resume file is
not readable. -/
theorem validation_ignores_readability_counterexample :
    programModel urlAlways fsAlways readNever mainTwo argsW = (Except.ok (), 2) ∧
    readNever argsW.resumePath = false := ⟨rfl, rfl⟩

/-- C9 (amended): when the resume path does not exist on the
filesystem, or the job URL fails the URL check, option parsing reports
a hard error and zero workflow steps execute, for every readability
oracle and every `main`. -/
theorem runStart_validation_blocks_steps
    (isUrl fsExists readable : String → Bool) (mainSteps : CliArgs → Nat)
    (args : CliArgs)
    (h : fsExists args.resumePath = false ∨ isUrl args.jobUrl = false) :
    (programModel isUrl fsExists readable mainSteps args).2 = 0 ∧
    ∃ e, (programModel isUrl fsExists readable mainSteps args).1 = Except.error e := by
  rcases h with hfs | hurl
  · obtain ⟨e, he⟩ := validatePath_error_of_not_exists fsExists args.resumePath hfs
    by_cases hu : isUrl args.jobUrl = false
    · simp [programModel, parseCliOptions, hu]
    · simp only [Bool.not_eq_false] at hu
      simp [programModel, parseCliOptions, hu, he]
  · simp [programModel, parseCliOptions, hurl]

/-- Closed instance of `runStart_validation_blocks_steps` on a
filesystem where the resume path does not exist. -/
theorem runStart_validation_blocks_steps_witness :
    (programModel urlAlways fsNever readNever mainTwo argsW).2 = 0 ∧
    ∃ e, (programModel urlAlways fsNever readNever mainTwo argsW).1 = Except.error e :=
  runStart_validation_blocks_steps urlAlways fsNever readNever mainTwo argsW
    (Or.inl rfl)

end OpenDoor
